import Mathlib

/-!
Shallow embedding of the XML-to-JSON converter core:
the generic XML-to-JSON mapper and conversion facade of
src/utils/converter.ts, the Alteryx workflow extractor of
src/utils/workflowConverter.ts, and the basic converter variant
(unnamed source file with the non-forwarded preserveAttributes flag).

The external DOM parser collaborator is modelled as a parameter
`parse : String → Except String XmlNode` returning the document
element of a parsed tree; the converter code itself is translated
function by function below.  JavaScript strings are Lean `String`s,
JS objects with dynamically added keys are insertion-ordered
association lists, `Date.now()` is an explicit `now : Nat` argument,
and the process-wide conversion cache is threaded explicitly.
JS number values produced by `parseInt` are `Option Int`, with
`none` playing the role of `NaN`.
-/

/-- A parsed XML node as exposed by the DOM parser collaborator:
an element with tag name, ordered attributes and ordered children,
or a text node. -/
inductive XmlNode where
  | element (tag : String) (attrs : List (String × String)) (children : List XmlNode)
  | text (value : String)
deriving Repr

/-- A JSON value as produced by the converter (the dynamic `any`
shape of the source): null, string, number, mapping in insertion
order, or array. -/
inductive JsonValue where
  | null
  | num (n : Int)
  | str (s : String)
  | obj (fields : List (String × JsonValue))
  | arr (items : List JsonValue)
deriving Repr

/-- Characters treated as whitespace by JavaScript `trim()`
(ASCII portion, which is what the converter ever sees). -/
def isJsSpace (c : Char) : Bool :=
  c = ' ' || c = '\t' || c = '\n' || c = '\r' || c = '\x0b' || c = '\x0c'

/-- JavaScript `String.prototype.trim`. -/
def jsTrim (s : String) : String :=
  ⟨(s.data.dropWhile isJsSpace).reverse.dropWhile isJsSpace |>.reverse⟩

/-- Concatenation of a list of strings (JS `Array.prototype.join("")`). -/
def strConcat (l : List String) : String := ⟨(l.map String.data).flatten⟩

/-- JavaScript `String.prototype.startsWith`. -/
def jsStartsWith (s pat : String) : Bool := pat.data.isPrefixOf s.data

/-- Substring occurrence test on character lists. -/
def listContainsSub (pat : List Char) : List Char → Bool
  | [] => pat.isEmpty
  | c :: rest => pat.isPrefixOf (c :: rest) || listContainsSub pat rest

/-- JavaScript `String.prototype.includes`. -/
def strIncludes (s pat : String) : Bool := listContainsSub pat.data s.data

/-- Lookup in an insertion-ordered association list
(JS `obj[key]`, `undefined` becoming `none`). -/
def lookupAssoc {α : Type} (l : List (String × α)) (k : String) : Option α :=
  match l with
  | [] => none
  | (k1, v) :: rest => if k1 = k then some v else lookupAssoc rest k

/-- Replace the value at an existing key, keeping its position
(JS assignment to a key that is already present). -/
def updateAssoc {α : Type} (l : List (String × α)) (k : String) (v : α) :
    List (String × α) :=
  match l with
  | [] => []
  | (k1, v1) :: rest =>
    if k1 = k then (k1, v) :: rest else (k1, v1) :: updateAssoc rest k v

/-- JS object assignment `obj[key] = v`: update in place when the key
exists, append at the end otherwise. -/
def setAssoc {α : Type} (l : List (String × α)) (k : String) (v : α) :
    List (String × α) :=
  match lookupAssoc l k with
  | some _ => updateAssoc l k v
  | none => l ++ [(k, v)]

/-- Whether a node is a DOM text node (`nodeType === 3`). -/
def isTextNode : XmlNode → Bool
  | .text _ => true
  | _ => false

/-- Whether a node is a DOM element node (`nodeType === 1`). -/
def isElementNode : XmlNode → Bool
  | .element _ _ _ => true
  | _ => false

/-- DOM `nodeValue` of a text node (elements have null `nodeValue`,
joined as the empty string by the source's string concatenation). -/
def nodeValue : XmlNode → String
  | .text v => v
  | _ => ""

/-- DOM `nodeName` / `tagName`: the tag for elements, `"#text"` for
text nodes. -/
def nodeName : XmlNode → String
  | .element tag _ _ => tag
  | .text _ => "#text"

/-- DOM `getAttribute`: the value of the named attribute, `none` for
the null returned on absence. -/
def getAttribute (x : XmlNode) (name : String) : Option String :=
  match x with
  | .element _ attrs _ => (attrs.find? (fun a => a.1 = name)).map (fun a => a.2)
  | .text _ => none

/-- Attribute list of an element (DOM `attributes` in document order). -/
def attributesOf (x : XmlNode) : List (String × String) :=
  match x with
  | .element _ attrs _ => attrs
  | .text _ => []

/-- Child list of a node. -/
def childNodes : XmlNode → List XmlNode
  | .element _ _ children => children
  | .text _ => []

/-- DOM `children`: the element children only, in order. -/
def elementChildren (x : XmlNode) : List XmlNode :=
  (childNodes x).filter isElementNode

mutual

/-- All element nodes of a subtree in document (pre-) order,
the subtree root included: the candidate set of a `querySelectorAll`
issued on a document. -/
def elementsPre : XmlNode → List XmlNode
  | .text _ => []
  | .element tag attrs children =>
    .element tag attrs children :: elementsPreList children

/-- Pre-order element list of a forest of siblings. -/
def elementsPreList : List XmlNode → List XmlNode
  | [] => []
  | c :: rest => elementsPre c ++ elementsPreList rest

end

/-- Element descendants of a node, excluding the node itself:
the candidate set of a `querySelector` issued on an element. -/
def descendantElements (x : XmlNode) : List XmlNode :=
  match x with
  | .element _ _ children => elementsPreList children
  | .text _ => []

/-- Element-level `querySelector` with a tag-name selector: first
matching descendant in document order. -/
def querySelector (x : XmlNode) (tag : String) : Option XmlNode :=
  (descendantElements x).find? (fun e => nodeName e = tag)

/-- Document-level `querySelectorAll` with a tag-name selector: all
matching elements of the document (its root element included) in
document order. -/
def docQuerySelectorAll (root : XmlNode) (tag : String) : List XmlNode :=
  (elementsPre root).filter (fun e => nodeName e = tag)

/-- Document-level `querySelector`. -/
def docQuerySelector (root : XmlNode) (tag : String) : Option XmlNode :=
  (docQuerySelectorAll root tag).head?

mutual

/-- DOM `textContent`: concatenation of all descendant text, in
document order. -/
def textContent : XmlNode → String
  | .text v => v
  | .element _ _ children => textContentList children

/-- Concatenated `textContent` of a forest of siblings. -/
def textContentList : List XmlNode → String
  | [] => ""
  | c :: rest => textContent c ++ textContentList rest

end

/-- Serialization of an attribute list as XML markup. -/
def serializeAttrs : List (String × String) → String
  | [] => ""
  | (k, v) :: rest => " " ++ k ++ "=\"" ++ v ++ "\"" ++ serializeAttrs rest

mutual

/-- Serialization of a node as XML markup (the DOM serializer behind
`innerHTML`, without entity escaping, which the converter never
relies on). -/
def serializeNode : XmlNode → String
  | .text v => v
  | .element tag attrs children =>
    "<" ++ tag ++ serializeAttrs attrs ++ ">" ++ serializeChildren children
      ++ "</" ++ tag ++ ">"

/-- Serialization of a forest of siblings. -/
def serializeChildren : List XmlNode → String
  | [] => ""
  | c :: rest => serializeNode c ++ serializeChildren rest

end

/-- DOM `innerHTML`: serialized markup of a node's children. -/
def innerHTML (x : XmlNode) : String := serializeChildren (childNodes x)

/-- JS `a || b` for a string-or-null value `a` and string default `b`:
the default is used when `a` is null or the empty string. -/
def jsOr (v : Option String) (dflt : String) : String :=
  match v with
  | none => dflt
  | some "" => dflt
  | some s => s

/-- JS `a || undefined` for a string-or-undefined value: the empty
string collapses to undefined. -/
def jsOrUndefined (v : Option String) : Option String :=
  match v with
  | some "" => none
  | x => x

/-- Digit characters accepted by decimal `parseInt` (code points of
the ASCII digits). -/
def isDecDigit (c : Char) : Bool :=
  48 ≤ c.toNat && c.toNat ≤ 57

/-- Hexadecimal digit value, if any (by ASCII code point: digits,
lowercase letters, uppercase letters). -/
def hexDigitVal (c : Char) : Option Nat :=
  let n := c.toNat
  if 48 ≤ n && n ≤ 57 then some (n - 48)
  else if 97 ≤ n && n ≤ 102 then some (n - 87)
  else if 65 ≤ n && n ≤ 70 then some (n - 55)
  else none

/-- Value of a list of decimal digits. -/
def decDigitsVal (ds : List Char) : Nat :=
  ds.foldl (fun acc c => 10 * acc + (c.toNat - 48)) 0

/-- Value of a list of hexadecimal digits. -/
def hexDigitsVal (ds : List Char) : Nat :=
  ds.foldl (fun acc c => 16 * acc + ((hexDigitVal c).getD 0)) 0

/-- Longest leading run of decimal digits, `none` when there is none
(the NaN case of `parseInt`). -/
def parseDecPrefix (cs : List Char) : Option Nat :=
  match cs.takeWhile isDecDigit with
  | [] => none
  | ds => some (decDigitsVal ds)

/-- Longest leading run of hexadecimal digits, `none` when there is
none. -/
def parseHexPrefix (cs : List Char) : Option Nat :=
  match cs.takeWhile (fun c => (hexDigitVal c).isSome) with
  | [] => none
  | ds => some (hexDigitsVal ds)

/-- Magnitude part of JS `parseInt` with no radix argument: a `0x` or
`0X` prefix switches to hexadecimal, otherwise the leading decimal
digits are taken; no digits at all gives NaN (`none`). -/
def parseIntMagnitude (cs : List Char) : Option Nat :=
  match cs with
  | '0' :: 'x' :: rest => parseHexPrefix rest
  | '0' :: 'X' :: rest => parseHexPrefix rest
  | _ => parseDecPrefix cs

/-- JavaScript `parseInt(s)` (no radix argument): skip leading
whitespace, read an optional sign, then the longest digit prefix;
`none` models the NaN result when no digit can be read. -/
def jsParseInt (s : String) : Option Int :=
  match s.data.dropWhile isJsSpace with
  | '-' :: rest => (parseIntMagnitude rest).map (fun n => -(n : Int))
  | '+' :: rest => (parseIntMagnitude rest).map (fun n => (n : Int))
  | rest => (parseIntMagnitude rest).map (fun n => (n : Int))

namespace WorkflowConverter

/-- Tool position; the coordinates come from `parseInt`, so `none`
models a NaN coordinate. -/
structure Position where
  x : Option Int
  y : Option Int
deriving Repr, DecidableEq

/-- One Alteryx tool extracted from a `Node` element. -/
structure AlteryxTool where
  id : String
  name : String
  type : String
  plugin : String
  configuration : List (String × String)
  position : Position
  engineSettings : Option (List (String × String))
deriving Repr, DecidableEq

/-- One Alteryx connection extracted from a `Connection` element. -/
structure AlteryxConnection where
  origin : String
  destination : String
  originOutput : Option String
  destinationInput : Option String
deriving Repr, DecidableEq

/-- Workflow metadata extracted from the `MetaInfo` element. -/
structure AlteryxMetadata where
  author : Option String
  description : Option String
  created : Option String
  modified : Option String
  category : Option String
deriving Repr, DecidableEq

/-- The extracted workflow. -/
structure AlteryxWorkflow where
  metadata : AlteryxMetadata
  tools : List AlteryxTool
  connections : List AlteryxConnection
  properties : List (String × String)
  constants : Option (List (String × String))
deriving Repr, DecidableEq

/-- The `child.textContent || child.innerHTML` content of a
configuration child: its text content, or its raw inner markup when
the text content is empty. -/
def contentOrMarkup (child : XmlNode) : String :=
  jsOr (some (textContent child)) (innerHTML child)

/-- Flattening of a properties-like element: each direct element
child's tag name is mapped to its content, later duplicates
overwriting in place. -/
def extractConfiguration (propsEl : XmlNode) : List (String × String) :=
  (elementChildren propsEl).foldl
    (fun config child => setAssoc config (nodeName child) (contentOrMarkup child)) []

/-- Extraction of one `AlteryxTool` from a `Node` element
(`nodes.forEach` body of `parseAlteryxWorkflow`). -/
def parseToolNode (node : XmlNode) : AlteryxTool :=
  let gui := querySelector node "GuiSettings"
  { id := jsOr (getAttribute node "ToolID") ""
    name := jsOr (gui.bind (fun g => getAttribute g "Plugin")) "Unknown"
    type := jsOr (gui.bind (fun g => getAttribute g "Plugin")) "Unknown"
    plugin := jsOr (gui.bind (fun g => getAttribute g "Plugin")) ""
    configuration :=
      match querySelector node "Properties" with
      | some props => extractConfiguration props
      | none => []
    position :=
      { x := jsParseInt (jsOr (gui.bind (fun g => getAttribute g "X")) "0")
        y := jsParseInt (jsOr (gui.bind (fun g => getAttribute g "Y")) "0") }
    engineSettings :=
      (querySelector node "EngineSettings").map (fun es =>
        (attributesOf es).foldl (fun settings a => setAssoc settings a.1 a.2) []) }

/-- Extraction of one `AlteryxConnection` from a `Connection`
element. -/
def parseConnectionNode (conn : XmlNode) : AlteryxConnection :=
  { origin := jsOr (getAttribute conn "Origin") ""
    destination := jsOr (getAttribute conn "Destination") ""
    originOutput := jsOrUndefined (getAttribute conn "OriginOutput")
    destinationInput := jsOrUndefined (getAttribute conn "DestinationInput") }

/-- Metadata extraction from the first `MetaInfo` element. -/
def parseMetadata (xmlDoc : XmlNode) : AlteryxMetadata :=
  match docQuerySelector xmlDoc "MetaInfo" with
  | none => ⟨none, none, none, none, none⟩
  | some mi =>
    { author := jsOrUndefined ((querySelector mi "Author").map textContent)
      description := jsOrUndefined ((querySelector mi "Description").map textContent)
      created := jsOrUndefined ((querySelector mi "Created").map textContent)
      modified := jsOrUndefined ((querySelector mi "Modified").map textContent)
      category := jsOrUndefined ((querySelector mi "CategoryName").map textContent) }

/-- Constants extraction: present only when at least one `Constant`
element exists; each constant with a truthy `Name` attribute maps its
name to its text content. -/
def parseConstants (xmlDoc : XmlNode) : Option (List (String × String)) :=
  match docQuerySelectorAll xmlDoc "Constant" with
  | [] => none
  | cs =>
    some (cs.foldl
      (fun m c =>
        match getAttribute c "Name" with
        | some n => if n ≠ "" then setAssoc m n (textContent c) else m
        | none => m) [])

/-- The Alteryx workflow extractor `parseAlteryxWorkflow`, acting on
the parsed document tree (the source re-parses its string input with
the external DOM parser; the tree is the parser's output). -/
def parseAlteryxWorkflow (xmlDoc : XmlNode) : AlteryxWorkflow :=
  { metadata := parseMetadata xmlDoc
    tools := (docQuerySelectorAll xmlDoc "Node").map parseToolNode
    connections := (docQuerySelectorAll xmlDoc "Connection").map parseConnectionNode
    properties :=
      match docQuerySelector xmlDoc "Properties" with
      | some props => extractConfiguration props
      | none => []
    constants := parseConstants xmlDoc }

end WorkflowConverter

namespace Converter

/-- The file type categories returned by the detector. -/
inductive FileType where
  | yxmd
  | generic
deriving Repr, DecidableEq

/-- The fixed marker substrings of the Alteryx dialect
(`alteryxIndicators` in `detectFileType`). -/
def alteryxIndicators : List String :=
  ["AlteryxDocument", "<Node ToolID=", "<Connection Origin=",
   "GuiSettings Plugin=", "yxmdVer=", "EngineSettings EngineDll="]

/-- The file-type detector of the enhanced converter: Alteryx when
any marker substring occurs anywhere in the text, generic
otherwise. -/
def detectFileType (xmlString : String) : FileType :=
  if alteryxIndicators.any (fun indicator => strIncludes xmlString indicator)
  then .yxmd else .generic

/-- Namespace processing of the facade: the source's regex callback
returns each matched namespace declaration unchanged, so the function
is the identity. -/
def processNamespaces (xmlString : String) : String := xmlString

/-- Split a character list around the first occurrence of a pattern:
the part before, and the part after the pattern. -/
def findSubSplit (pat : List Char) : List Char → Option (List Char × List Char)
  | [] => if pat.isEmpty then some ([], []) else none
  | c :: rest =>
    if pat.isPrefixOf (c :: rest) then some ([], (c :: rest).drop pat.length)
    else
      match findSubSplit pat rest with
      | some (pre, post) => some (c :: pre, post)
      | none => none

/-- Left-to-right replacement of each `<![CDATA[ ... ]]>` section by
its content (the source's global non-greedy regex); the fuel bounds
the number of replacements and is instantiated with the text length,
which no input can exhaust. -/
def processCDATAAux : Nat → List Char → List Char
  | 0, cs => cs
  | fuel + 1, cs =>
    match findSubSplit "<![CDATA[".data cs with
    | none => cs
    | some (pre, rest1) =>
      match findSubSplit "]]>".data rest1 with
      | none => cs
      | some (content, rest2) => pre ++ content ++ processCDATAAux fuel rest2

/-- CDATA resolution of the facade. -/
def processCDATA (xmlString : String) : String :=
  ⟨processCDATAAux xmlString.data.length xmlString.data⟩

/-- Addition of a converted child under its tag name (`obj[nodeName]`
assignment of the source): a fresh key is set directly; an existing
non-array value is promoted to a two-element array; an existing array
is appended to. -/
def addChildValue (obj : List (String × JsonValue)) (k : String) (v : JsonValue) :
    List (String × JsonValue) :=
  match lookupAssoc obj k with
  | none => obj ++ [(k, v)]
  | some (.arr xs) => updateAssoc obj k (.arr (xs ++ [v]))
  | some old => updateAssoc obj k (.arr [old, v])

mutual

/-- The generic XML-to-JSON mapper `xmlToJson` of the enhanced
converter, on a DOM element or text node.  Attributes are recorded
under `@attributes` when preservation is on; an all-text child list
becomes trimmed text (returned bare when the mapping is still empty,
else recorded under `#text`); otherwise the children are folded into
the mapping by `childLoop`. -/
def xmlToJson (xml : XmlNode) (preserveAttributes : Bool) : JsonValue :=
  match xml with
  | .text v => .str v
  | .element _ attrs children =>
    let obj0 : List (String × JsonValue) :=
      if preserveAttributes && !attrs.isEmpty then
        [("@attributes", .obj (attrs.map fun a => (a.1, .str a.2)))]
      else []
    if !children.isEmpty && children.all isTextNode then
      let text := jsTrim (strConcat (children.map nodeValue))
      if text ≠ "" then
        if obj0.isEmpty then .str text
        else .obj (obj0 ++ [("#text", .str text)])
      else .obj obj0
    else if !children.isEmpty then
      childLoop obj0 children preserveAttributes
    else
      .obj obj0

/-- The child-scanning loop of `xmlToJson` (its `for` loop over
`childNodes`): a non-empty text child returns its trimmed text early
while the mapping is still empty and is skipped otherwise; an element
child is converted recursively and added under its tag name, the
existing value being promoted to an array on the second occurrence. -/
def childLoop (obj : List (String × JsonValue)) (cs : List XmlNode)
    (preserveAttributes : Bool) : JsonValue :=
  match cs with
  | [] => .obj obj
  | .text v :: rest =>
    if jsTrim v ≠ "" && obj.isEmpty then .str (jsTrim v)
    else childLoop obj rest preserveAttributes
  | .element tag attrs grandchildren :: rest =>
    childLoop
      (addChildValue obj tag (xmlToJson (.element tag attrs grandchildren) preserveAttributes))
      rest preserveAttributes

end

/-- JSON string escaping used by the output formatter (the
`JSON.stringify` collaborator; escaping of the characters the
converter can produce). -/
def escapeJsonChar (c : Char) : String :=
  if c = '"' then "\\\""
  else if c = '\\' then "\\\\"
  else if c = '\n' then "\\n"
  else if c = '\t' then "\\t"
  else if c = '\r' then "\\r"
  else String.singleton c

/-- Escaped and quoted JSON string literal. -/
def quoteJson (s : String) : String :=
  "\"" ++ strConcat (s.data.map escapeJsonChar) ++ "\""

/-- Comma-separated joining. -/
def joinSep (sep : String) : List String → String
  | [] => ""
  | [x] => x
  | x :: rest => x ++ sep ++ joinSep sep rest

mutual

/-- Minified JSON rendering (`JSON.stringify(v)`). -/
def renderMin : JsonValue → String
  | .null => "null"
  | .num n => toString n
  | .str s => quoteJson s
  | .obj fields => "\x7b" ++ joinSep "," (renderMinFields fields) ++ "\x7d"
  | .arr items => "[" ++ joinSep "," (renderMinItems items) ++ "]"

/-- Minified rendering of object fields. -/
def renderMinFields : List (String × JsonValue) → List String
  | [] => []
  | (k, v) :: rest => (quoteJson k ++ ":" ++ renderMin v) :: renderMinFields rest

/-- Minified rendering of array items. -/
def renderMinItems : List JsonValue → List String
  | [] => []
  | v :: rest => renderMin v :: renderMinItems rest

end

/-- Indentation by a number of spaces. -/
def indentBy (n : Nat) : String := ⟨List.replicate n ' '⟩

mutual

/-- Indented JSON rendering (`JSON.stringify(v, null, iw)`). -/
def renderInd (iw depth : Nat) : JsonValue → String
  | .null => "null"
  | .num n => toString n
  | .str s => quoteJson s
  | .obj [] => "{}"
  | .obj fields =>
    "\x7b\n" ++ joinSep ",\n" (renderIndFields iw (depth + 1) fields) ++ "\n"
      ++ indentBy (iw * depth) ++ "\x7d"
  | .arr [] => "[]"
  | .arr items =>
    "[\n" ++ joinSep ",\n" (renderIndItems iw (depth + 1) items) ++ "\n"
      ++ indentBy (iw * depth) ++ "]"

/-- Indented rendering of object fields. -/
def renderIndFields (iw depth : Nat) : List (String × JsonValue) → List String
  | [] => []
  | (k, v) :: rest =>
    (indentBy (iw * depth) ++ quoteJson k ++ ": " ++ renderInd iw depth v)
      :: renderIndFields iw depth rest

/-- Indented rendering of array items. -/
def renderIndItems (iw depth : Nat) : List JsonValue → List String
  | [] => []
  | v :: rest =>
    (indentBy (iw * depth) ++ renderInd iw depth v) :: renderIndItems iw depth rest

end

/-- The output formats recognized by the facade. -/
inductive OutputFormat where
  | pretty
  | minified
  | compact
deriving Repr, DecidableEq

/-- The output formatter `formatJsonOutput`: minified is
`JSON.stringify(v)`, compact uses 1-space indent, and every other
case (pretty or absent) uses 2-space indent. -/
def formatJsonOutput (jsonObj : JsonValue) (format : Option OutputFormat) : String :=
  match format with
  | some .minified => renderMin jsonObj
  | some .compact => renderInd 1 0 jsonObj
  | _ => renderInd 2 0 jsonObj

/-- JSON encoding of an optional string field: skipped when
undefined. -/
def optField (k : String) (v : Option String) : List (String × JsonValue) :=
  match v with
  | none => []
  | some s => [(k, .str s)]

/-- JSON encoding of a string mapping. -/
def recordToJson (m : List (String × String)) : JsonValue :=
  .obj (m.map fun a => (a.1, .str a.2))

/-- JSON encoding of a parseInt result: NaN serializes as null. -/
def coordToJson (v : Option Int) : JsonValue :=
  match v with
  | none => .null
  | some n => .num n

/-- JSON encoding of an extracted tool, with keys in the creation
order of the source's object literal. -/
def toolToJson (t : WorkflowConverter.AlteryxTool) : JsonValue :=
  .obj ([("id", .str t.id), ("name", .str t.name), ("type", .str t.type),
    ("plugin", .str t.plugin), ("configuration", recordToJson t.configuration),
    ("position", .obj [("x", coordToJson t.position.x), ("y", coordToJson t.position.y)])]
    ++ (match t.engineSettings with
        | none => []
        | some es => [("engineSettings", recordToJson es)]))

/-- JSON encoding of an extracted connection. -/
def connectionToJson (c : WorkflowConverter.AlteryxConnection) : JsonValue :=
  .obj ([("origin", .str c.origin), ("destination", .str c.destination)]
    ++ optField "originOutput" c.originOutput
    ++ optField "destinationInput" c.destinationInput)

/-- JSON encoding of the extracted workflow, as `JSON.stringify`
serializes the object built by `parseAlteryxWorkflow` (undefined
fields skipped). -/
def workflowToJson (w : WorkflowConverter.AlteryxWorkflow) : JsonValue :=
  .obj ([("metadata", .obj (optField "author" w.metadata.author
          ++ optField "description" w.metadata.description
          ++ optField "created" w.metadata.created
          ++ optField "modified" w.metadata.modified
          ++ optField "category" w.metadata.category)),
    ("tools", .arr (w.tools.map toolToJson)),
    ("connections", .arr (w.connections.map connectionToJson)),
    ("properties", recordToJson w.properties)]
    ++ (match w.constants with
        | none => []
        | some cs => [("constants", recordToJson cs)]))

/-- One entry of the conversion cache: the formatted result and its
creation timestamp. -/
structure CacheEntry where
  result : String
  timestamp : Nat
deriving Repr, DecidableEq

/-- The conversion cache, keyed by trimmed input and serialized
options (the process-wide `conversionCache` map, threaded
explicitly). -/
abbrev ConversionCache := List (String × CacheEntry)

/-- The fixed time-to-live of cache entries (5 minutes in
milliseconds). -/
def CACHE_DURATION : Nat := 5 * 60 * 1000

/-- Lazy purge `cleanCache`: drop every entry strictly older than the
time-to-live. -/
def cleanCache (now : Nat) (cache : ConversionCache) : ConversionCache :=
  cache.filter (fun e => !(decide (now - e.2.timestamp > CACHE_DURATION)))

/-- The options record of the facade; absent fields are `none`
(undefined). -/
structure ConvOptions where
  preserveAttributes : Option Bool
  outputFormat : Option OutputFormat
  useCache : Option Bool
deriving Repr, DecidableEq

/-- Serialization of a boolean as JSON.stringify renders it. -/
def boolLit (b : Bool) : String := if b then "true" else "false"

/-- Serialization of a format as JSON.stringify renders it. -/
def formatLit : OutputFormat → String
  | .pretty => "\"pretty\""
  | .minified => "\"minified\""
  | .compact => "\"compact\""

/-- `JSON.stringify(options)` as used for the cache key: the string
`undefined` when no options record was passed, otherwise the defined
fields in declaration order. -/
def stringifyOptions : Option ConvOptions → String
  | none => "undefined"
  | some o =>
    "\x7b" ++ joinSep ","
      ((match o.preserveAttributes with
        | none => []
        | some b => ["\"preserveAttributes\":" ++ boolLit b]) ++
       (match o.outputFormat with
        | none => []
        | some f => ["\"outputFormat\":" ++ formatLit f]) ++
       (match o.useCache with
        | none => []
        | some b => ["\"useCache\":" ++ boolLit b])) ++ "\x7d"

/-- The error taxonomy of the facade. -/
inductive ConvError where
  | emptyInput
  | malformedInput
  | parseError (msg : String)
deriving Repr, DecidableEq

/-- The human-readable message thrown with each error. -/
def ConvError.message : ConvError → String
  | .emptyInput => "XML content is empty"
  | .malformedInput => "Invalid XML: Content must start with a tag"
  | .parseError msg => "Invalid XML: " ++ msg

/-- Result of one facade call: the outcome (formatted JSON text or
error), the cache state after the call, and whether the external DOM
parser was invoked. -/
structure ConvOutcome where
  outcome : Except ConvError String
  cache : ConversionCache
  parserInvoked : Bool
deriving Repr

/-- The conversion facade `convertXmlToJson` of the enhanced
converter.  `parse` is the external DOM parser collaborator
(returning the document element or a diagnostic), `now` the current
clock reading, and `cache` the conversion cache state at entry. -/
def convertXmlToJson (parse : String → Except String XmlNode) (now : Nat)
    (cache : ConversionCache) (xmlString : String)
    (options : Option ConvOptions) : ConvOutcome :=
  let trimmedXml := jsTrim xmlString
  if trimmedXml = "" then ⟨.error .emptyInput, cache, false⟩
  else if !jsStartsWith trimmedXml "<" then ⟨.error .malformedInput, cache, false⟩
  else
    let useCache := (options.bind ConvOptions.useCache).getD true
    let cacheKey := trimmedXml ++ "_" ++ stringifyOptions options
    let cachedFresh : Option CacheEntry :=
      if useCache then
        match lookupAssoc cache cacheKey with
        | some c => if now - c.timestamp < CACHE_DURATION then some c else none
        | none => none
      else none
    match cachedFresh with
    | some c => ⟨.ok c.result, cache, false⟩
    | none =>
      let processedXml := processCDATA (processNamespaces trimmedXml)
      match parse processedXml with
      | .error msg => ⟨.error (.parseError msg), cache, true⟩
      | .ok xmlDoc =>
        let result :=
          if detectFileType processedXml = FileType.yxmd then
            formatJsonOutput (workflowToJson (WorkflowConverter.parseAlteryxWorkflow xmlDoc))
              (options.bind ConvOptions.outputFormat)
          else
            formatJsonOutput
              (xmlToJson xmlDoc ((options.bind ConvOptions.preserveAttributes).getD true))
              (options.bind ConvOptions.outputFormat)
        if useCache then
          ⟨.ok result, cleanCache now (setAssoc cache cacheKey ⟨result, now⟩), true⟩
        else
          ⟨.ok result, cache, true⟩

/-- Cache reset `clearConversionCache`. -/
def clearConversionCache : ConversionCache := []

end Converter

namespace BasicConverter

/-- The file-type detector of the basic converter variant: only two
marker substrings. -/
def detectFileType (xmlString : String) : Converter.FileType :=
  if strIncludes xmlString "AlteryxDocument" || strIncludes xmlString "Properties"
  then .yxmd else .generic

mutual

/-- The generic mapper of the basic converter variant.  The
`preserveAttributes` parameter is declared (defaulting to true) but
the attribute block does not consult it, mirroring the source where
the flag is never read. -/
def xmlToJson (xml : XmlNode) (preserveAttributes : Bool) : JsonValue :=
  match xml with
  | .text v => .str v
  | .element _ attrs children =>
    let obj0 : List (String × JsonValue) :=
      if !attrs.isEmpty then
        [("@attributes", .obj (attrs.map fun a => (a.1, .str a.2)))]
      else []
    if !children.isEmpty && children.all isTextNode then
      let text := jsTrim (strConcat (children.map nodeValue))
      if text ≠ "" then
        if obj0.isEmpty then .str text
        else .obj (obj0 ++ [("#text", .str text)])
      else .obj obj0
    else if !children.isEmpty then
      childLoop obj0 children
    else
      .obj obj0

/-- The child-scanning loop of the basic mapper; the recursive call
passes no flag, so the recursion always uses the default `true`. -/
def childLoop (obj : List (String × JsonValue)) (cs : List XmlNode) : JsonValue :=
  match cs with
  | [] => .obj obj
  | .text v :: rest =>
    if jsTrim v ≠ "" && obj.isEmpty then .str (jsTrim v)
    else childLoop obj rest
  | .element tag attrs grandchildren :: rest =>
    childLoop
      (Converter.addChildValue obj tag (xmlToJson (.element tag attrs grandchildren) true))
      rest

end

/-- Options of the basic facade. -/
structure BasicOptions where
  preserveAttributes : Option Bool
deriving Repr, DecidableEq

/-- The conversion function of the basic converter variant: validate,
parse, map with `options?.preserveAttributes ?? true`, and pretty
print with 2-space indent.  It has no cache and no detector
dispatch. -/
def convertXmlToJson (parse : String → Except String XmlNode)
    (xmlString : String) (options : Option BasicOptions) :
    Except Converter.ConvError String :=
  let trimmedXml := jsTrim xmlString
  if trimmedXml = "" then .error .emptyInput
  else if !jsStartsWith trimmedXml "<" then .error .malformedInput
  else
    match parse trimmedXml with
    | .error msg => .error (.parseError msg)
    | .ok xmlDoc =>
      .ok (Converter.renderInd 2 0
        (xmlToJson xmlDoc ((options.bind BasicOptions.preserveAttributes).getD true)))

end BasicConverter

/-! Helper lemmas on the association-list operations. -/

theorem lookupAssoc_append_of_none {α : Type} {l1 : List (String × α)} {k : String}
    (l2 : List (String × α)) (h : lookupAssoc l1 k = none) :
    lookupAssoc (l1 ++ l2) k = lookupAssoc l2 k := by
  induction l1 with
  | nil => rfl
  | cons a rest ih =>
    obtain ⟨k1, v⟩ := a
    simp only [lookupAssoc, List.cons_append] at h ⊢
    by_cases h1 : k1 = k
    · simp [h1] at h
    · rw [if_neg h1] at h ⊢
      exact ih h

theorem lookupAssoc_append_of_some {α : Type} {l1 : List (String × α)} {k : String}
    {v : α} (l2 : List (String × α)) (h : lookupAssoc l1 k = some v) :
    lookupAssoc (l1 ++ l2) k = some v := by
  induction l1 with
  | nil => simp [lookupAssoc] at h
  | cons a rest ih =>
    obtain ⟨k1, w⟩ := a
    simp only [lookupAssoc, List.cons_append] at h ⊢
    by_cases h1 : k1 = k
    · rw [if_pos h1] at h ⊢
      exact h
    · rw [if_neg h1] at h ⊢
      exact ih h

theorem lookupAssoc_updateAssoc_self {α : Type} {l : List (String × α)} {k : String}
    {w : α} (v : α) (h : lookupAssoc l k = some w) :
    lookupAssoc (updateAssoc l k v) k = some v := by
  induction l with
  | nil => simp [lookupAssoc] at h
  | cons a rest ih =>
    obtain ⟨k1, v1⟩ := a
    simp only [lookupAssoc, updateAssoc] at h ⊢
    by_cases h1 : k1 = k
    · rw [if_pos h1]
      simp [lookupAssoc, if_pos h1]
    · rw [if_neg h1] at h ⊢
      simp only [lookupAssoc, if_neg h1]
      exact ih h

theorem lookupAssoc_updateAssoc_ne {α : Type} (l : List (String × α)) {t k : String}
    (v : α) (h : t ≠ k) :
    lookupAssoc (updateAssoc l k v) t = lookupAssoc l t := by
  induction l with
  | nil => rfl
  | cons a rest ih =>
    obtain ⟨k1, v1⟩ := a
    simp only [lookupAssoc, updateAssoc]
    by_cases h1 : k1 = k
    · subst h1
      simp [lookupAssoc, if_neg (Ne.symm h)]
    · simp only [if_neg h1, lookupAssoc]
      by_cases h2 : k1 = t
      · rw [if_pos h2, if_pos h2]
      · rw [if_neg h2, if_neg h2]
        exact ih

theorem lookupAssoc_setAssoc_self {α : Type} (l : List (String × α)) (k : String)
    (v : α) : lookupAssoc (setAssoc l k v) k = some v := by
  unfold setAssoc
  cases h : lookupAssoc l k with
  | none =>
    rw [lookupAssoc_append_of_none _ h]
    simp [lookupAssoc]
  | some w => exact lookupAssoc_updateAssoc_self v h

theorem lookupAssoc_setAssoc_ne {α : Type} (l : List (String × α)) {t k : String}
    (v : α) (h : t ≠ k) :
    lookupAssoc (setAssoc l k v) t = lookupAssoc l t := by
  unfold setAssoc
  cases hl : lookupAssoc l k with
  | none =>
    cases h2 : lookupAssoc l t with
    | none =>
      rw [lookupAssoc_append_of_none _ h2]
      simp [lookupAssoc, Ne.symm h]
    | some w => exact lookupAssoc_append_of_some _ h2
  | some w => exact lookupAssoc_updateAssoc_ne l v h

theorem lookupAssoc_filter {α : Type} {l : List (String × α)} {k : String} {v : α}
    (q : String × α → Bool) (h : lookupAssoc l k = some v) (hq : q (k, v) = true) :
    lookupAssoc (l.filter q) k = some v := by
  induction l with
  | nil => simp [lookupAssoc] at h
  | cons a rest ih =>
    obtain ⟨k1, v1⟩ := a
    simp only [lookupAssoc] at h
    by_cases h1 : k1 = k
    · subst h1
      rw [if_pos rfl] at h
      obtain rfl : v1 = v := by injection h
      simp [List.filter, hq, lookupAssoc]
    · rw [if_neg h1] at h
      simp only [List.filter]
      cases hq1 : q (k1, v1) with
      | true =>
        simp only [lookupAssoc, if_neg h1]
        exact ih h
      | false => exact ih h

theorem lookupAssoc_addChildValue_ne (obj : List (String × JsonValue)) {t k : String}
    (v : JsonValue) (h : t ≠ k) :
    lookupAssoc (Converter.addChildValue obj k v) t = lookupAssoc obj t := by
  unfold Converter.addChildValue
  cases hl : lookupAssoc obj k with
  | none =>
    cases h2 : lookupAssoc obj t with
    | none =>
      rw [lookupAssoc_append_of_none _ h2]
      simp [lookupAssoc, Ne.symm h]
    | some w => exact lookupAssoc_append_of_some _ h2
  | some w =>
    cases w <;> exact lookupAssoc_updateAssoc_ne obj _ h

theorem lookupAssoc_addChildValue_of_none {obj : List (String × JsonValue)}
    {k : String} (v : JsonValue) (h : lookupAssoc obj k = none) :
    lookupAssoc (Converter.addChildValue obj k v) k = some v := by
  unfold Converter.addChildValue
  rw [h, lookupAssoc_append_of_none _ h]
  simp [lookupAssoc]

theorem lookupAssoc_addChildValue_of_arr {obj : List (String × JsonValue)}
    {k : String} {xs : List JsonValue} (v : JsonValue)
    (h : lookupAssoc obj k = some (.arr xs)) :
    lookupAssoc (Converter.addChildValue obj k v) k = some (.arr (xs ++ [v])) := by
  unfold Converter.addChildValue
  rw [h]
  exact lookupAssoc_updateAssoc_self _ h

theorem lookupAssoc_addChildValue_of_not_arr {obj : List (String × JsonValue)}
    {k : String} {old : JsonValue} (v : JsonValue)
    (h : lookupAssoc obj k = some old) (hold : ∀ xs, old ≠ .arr xs) :
    lookupAssoc (Converter.addChildValue obj k v) k = some (.arr [old, v]) := by
  unfold Converter.addChildValue
  rw [h]
  cases old with
  | arr xs => exact absurd rfl (hold xs)
  | null => exact lookupAssoc_updateAssoc_self _ h
  | num n => exact lookupAssoc_updateAssoc_self _ h
  | str s => exact lookupAssoc_updateAssoc_self _ h
  | obj fields => exact lookupAssoc_updateAssoc_self _ h

/-! Helper lemmas on the generic mapper's child loop. -/

theorem childLoop_ne_arr (cs : List XmlNode) : ∀ (obj : List (String × JsonValue))
    (p : Bool) (l : List JsonValue), Converter.childLoop obj cs p ≠ .arr l := by
  induction cs with
  | nil =>
    intro obj p l
    simp [Converter.childLoop]
  | cons c rest ih =>
    intro obj p l
    cases c with
    | text v =>
      simp only [Converter.childLoop]
      split
      · simp
      · exact ih obj p l
    | element tag attrs g =>
      simp only [Converter.childLoop]
      exact ih _ p l

theorem xmlToJson_ne_arr (x : XmlNode) (p : Bool) (l : List JsonValue) :
    Converter.xmlToJson x p ≠ .arr l := by
  cases x with
  | text v => simp [Converter.xmlToJson]
  | element tag attrs children =>
    simp only [Converter.xmlToJson]
    split
    · split
      · split <;> simp
      · simp
    · split
      · exact childLoop_ne_arr children _ p l
      · simp

theorem childLoop_all_elements (cs : List XmlNode) : ∀ (obj : List (String × JsonValue))
    (p : Bool), cs.all isElementNode = true →
    Converter.childLoop obj cs p =
      .obj (cs.foldl (fun o c => Converter.addChildValue o (nodeName c)
        (Converter.xmlToJson c p)) obj) := by
  induction cs with
  | nil =>
    intro obj p _
    simp [Converter.childLoop]
  | cons c rest ih =>
    intro obj p hall
    simp only [List.all_cons, Bool.and_eq_true] at hall
    cases c with
    | text v => simp [isElementNode] at hall
    | element tag attrs g =>
      simp only [Converter.childLoop, List.foldl_cons]
      exact ih _ p hall.2

theorem lookup_foldl_addChild_arr (p : Bool) (t : String) (cs : List XmlNode) :
    ∀ (obj : List (String × JsonValue)) (xs : List JsonValue),
    lookupAssoc obj t = some (.arr xs) →
    lookupAssoc (cs.foldl (fun o c => Converter.addChildValue o (nodeName c)
        (Converter.xmlToJson c p)) obj) t =
      some (.arr (xs ++ (cs.filter (fun c => nodeName c == t)).map
        (fun c => Converter.xmlToJson c p))) := by
  induction cs with
  | nil =>
    intro obj xs h
    simpa using h
  | cons c rest ih =>
    intro obj xs h
    rw [List.foldl_cons]
    by_cases hc : nodeName c = t
    · have hstep : lookupAssoc (Converter.addChildValue obj (nodeName c)
          (Converter.xmlToJson c p)) t
          = some (.arr (xs ++ [Converter.xmlToJson c p])) := by
        rw [hc]
        exact lookupAssoc_addChildValue_of_arr _ h
      rw [ih _ _ hstep]
      simp [List.filter_cons, hc]
    · have hstep : lookupAssoc (Converter.addChildValue obj (nodeName c)
          (Converter.xmlToJson c p)) t = some (.arr xs) := by
        rw [lookupAssoc_addChildValue_ne _ _ (Ne.symm hc)]
        exact h
      rw [ih _ _ hstep]
      simp [List.filter_cons, hc]

theorem lookup_foldl_addChild_single (p : Bool) (t : String) (cs : List XmlNode) :
    ∀ (obj : List (String × JsonValue)) (v : JsonValue),
    lookupAssoc obj t = some v → (∀ l, v ≠ .arr l) →
    lookupAssoc (cs.foldl (fun o c => Converter.addChildValue o (nodeName c)
        (Converter.xmlToJson c p)) obj) t =
      (match (cs.filter (fun c => nodeName c == t)).map
          (fun c => Converter.xmlToJson c p) with
       | [] => some v
       | w :: ws => some (.arr (v :: w :: ws))) := by
  induction cs with
  | nil =>
    intro obj v h _
    simpa using h
  | cons c rest ih =>
    intro obj v h hv
    rw [List.foldl_cons]
    by_cases hc : nodeName c = t
    · have hstep : lookupAssoc (Converter.addChildValue obj (nodeName c)
          (Converter.xmlToJson c p)) t
          = some (.arr [v, Converter.xmlToJson c p]) := by
        rw [hc]
        exact lookupAssoc_addChildValue_of_not_arr _ h hv
      rw [lookup_foldl_addChild_arr p t rest _ _ hstep]
      simp [List.filter_cons, hc]
    · have hstep : lookupAssoc (Converter.addChildValue obj (nodeName c)
          (Converter.xmlToJson c p)) t = some v := by
        rw [lookupAssoc_addChildValue_ne _ _ (Ne.symm hc)]
        exact h
      rw [ih _ _ hstep hv]
      simp [List.filter_cons, hc]

theorem lookup_foldl_addChild_none (p : Bool) (t : String) (cs : List XmlNode) :
    ∀ (obj : List (String × JsonValue)),
    lookupAssoc obj t = none →
    lookupAssoc (cs.foldl (fun o c => Converter.addChildValue o (nodeName c)
        (Converter.xmlToJson c p)) obj) t =
      (match (cs.filter (fun c => nodeName c == t)).map
          (fun c => Converter.xmlToJson c p) with
       | [] => none
       | [w] => some w
       | w :: w2 :: ws => some (.arr (w :: w2 :: ws))) := by
  induction cs with
  | nil =>
    intro obj h
    simpa using h
  | cons c rest ih =>
    intro obj h
    rw [List.foldl_cons]
    by_cases hc : nodeName c = t
    · have hstep : lookupAssoc (Converter.addChildValue obj (nodeName c)
          (Converter.xmlToJson c p)) t = some (Converter.xmlToJson c p) := by
        rw [hc]
        exact lookupAssoc_addChildValue_of_none _ h
      rw [lookup_foldl_addChild_single p t rest _ _ hstep
        (fun l => xmlToJson_ne_arr c p l)]
      simp only [List.filter_cons, hc, beq_self_eq_true, if_pos, List.map_cons]
      cases (rest.filter (fun c => nodeName c == t)).map
          (fun c => Converter.xmlToJson c p) with
      | nil => rfl
      | cons w ws => rfl
    · have hstep : lookupAssoc (Converter.addChildValue obj (nodeName c)
          (Converter.xmlToJson c p)) t = none := by
        rw [lookupAssoc_addChildValue_ne _ _ (Ne.symm hc)]
        exact h
      rw [ih _ hstep]
      simp [List.filter_cons, hc]

/-- C1: for every XML element whose children are all text nodes, whose
concatenated-and-trimmed text is non-empty, and for which no
attributes were recorded in the output (no attributes present, or
attribute preservation disabled), the generic mapper returns the
trimmed text string itself rather than a mapping wrapping it. -/
theorem C1_scalar_leaf_shortcut (tag : String) (attrs : List (String × String))
    (children : List XmlNode) (p : Bool)
    (hne : children.isEmpty = false)
    (hall : children.all isTextNode = true)
    (htext : jsTrim (strConcat (children.map nodeValue)) ≠ "")
    (hnoattr : p = false ∨ attrs = []) :
    Converter.xmlToJson (.element tag attrs children) p
      = .str (jsTrim (strConcat (children.map nodeValue))) := by
  have hobj : (if p && !attrs.isEmpty then
      [("@attributes", JsonValue.obj (attrs.map fun a => (a.1, JsonValue.str a.2)))]
      else ([] : List (String × JsonValue))) = [] := by
    rcases hnoattr with hp | ha
    · rw [hp]
      rfl
    · subst ha
      simp
  simp only [Converter.xmlToJson, hobj, hne, hall, Bool.not_false, Bool.and_true,
    Bool.and_self, if_pos, List.isEmpty_nil, if_true, htext, ite_not]
  simp [htext]

/-- Witness for C1 at the spec's example input. -/
theorem C1_scalar_leaf_shortcut_witness :
    Converter.xmlToJson (.element "Name" [] [.text "Alice"]) true = .str "Alice" := by
  have h := C1_scalar_leaf_shortcut "Name" [] [.text "Alice"] true rfl rfl
    (by decide) (Or.inr rfl)
  exact h.trans (congrArg JsonValue.str rfl)

/-- C2: for every parent element with (only) element children and any
tag name other than the reserved attributes key, the generic mapper
maps that tag name to: nothing when it occurs in no child, the single
converted child when it occurs once (never wrapped in a sequence),
and the ordered sequence of all converted children with that tag when
it occurs two or more times — so no sibling sharing a tag name is
ever dropped. -/
theorem C2_repeated_tag_promotion (tag t : String) (attrs : List (String × String))
    (children : List XmlNode) (p : Bool)
    (hne : children.isEmpty = false)
    (hall : children.all isElementNode = true)
    (ht : t ≠ "@attributes") :
    ∃ out, Converter.xmlToJson (.element tag attrs children) p = .obj out ∧
      lookupAssoc out t =
        (match (children.filter (fun c => nodeName c == t)).map
            (fun c => Converter.xmlToJson c p) with
         | [] => none
         | [w] => some w
         | w :: w2 :: ws => some (.arr (w :: w2 :: ws))) := by
  have hmix : children.all isTextNode = false := by
    cases children with
    | nil => simp at hne
    | cons c rest =>
      simp only [List.all_cons, Bool.and_eq_true] at hall
      cases c with
      | element tg a g => simp [isTextNode]
      | text v => simp [isElementNode] at hall
  have hobj0 : lookupAssoc (if p && !attrs.isEmpty then
      [("@attributes", JsonValue.obj (attrs.map fun a => (a.1, JsonValue.str a.2)))]
      else ([] : List (String × JsonValue))) t = none := by
    split
    · simp [lookupAssoc, Ne.symm ht]
    · rfl
  refine ⟨_, ?_, lookup_foldl_addChild_none p t children _ hobj0⟩
  simp only [Converter.xmlToJson, hne, hmix, Bool.not_false, Bool.and_false,
    if_neg, Bool.false_eq_true, if_true]
  exact childLoop_all_elements children _ p hall

/-- Witness for C2 at the spec's example input. -/
theorem C2_repeated_tag_promotion_witness :
    ∃ out, Converter.xmlToJson (.element "Root" []
        [.element "Item" [] [.text "a"], .element "Item" [] [.text "b"]]) true
        = .obj out
      ∧ lookupAssoc out "Item" = some (.arr [.str "a", .str "b"]) := by
  obtain ⟨out, h1, h2⟩ := C2_repeated_tag_promotion "Root" "Item" []
    [.element "Item" [] [.text "a"], .element "Item" [] [.text "b"]] true
    rfl (by decide) (by decide)
  refine ⟨out, h1, ?_⟩
  rw [h2]
  simp [Converter.xmlToJson, nodeName, isTextNode, nodeValue, jsTrim, strConcat,
    isJsSpace]

/-- C4: empty or whitespace-only input always fails with the
empty-input error, and non-empty input whose trimmed text does not
begin with the tag-open character fails with the malformed-input
error, for every parser, clock, cache state and option combination,
with no partial output and no cache change. -/
theorem C4_input_validation (parse : String → Except String XmlNode) (now : Nat)
    (cache : Converter.ConversionCache) (s : String)
    (options : Option Converter.ConvOptions) :
    (jsTrim s = "" →
      Converter.convertXmlToJson parse now cache s options
        = ⟨.error .emptyInput, cache, false⟩)
  ∧ (jsTrim s ≠ "" → jsStartsWith (jsTrim s) "<" = false →
      Converter.convertXmlToJson parse now cache s options
        = ⟨.error .malformedInput, cache, false⟩) := by
  constructor
  · intro h
    simp [Converter.convertXmlToJson, h]
  · intro h1 h2
    simp [Converter.convertXmlToJson, h1, h2]

/-- Witness for C4 at whitespace-only and non-tag inputs. -/
theorem C4_input_validation_witness :
    Converter.convertXmlToJson (fun _ => .error "unused") 0 [] "   " none
      = ⟨.error .emptyInput, [], false⟩
  ∧ Converter.convertXmlToJson (fun _ => .error "unused") 0 [] "abc" none
      = ⟨.error .malformedInput, [], false⟩ :=
  ⟨(C4_input_validation (fun _ => .error "unused") 0 [] "   " none).1 rfl,
   (C4_input_validation (fun _ => .error "unused") 0 [] "abc" none).2
     (by decide) rfl⟩

/-- C7: the file-type detector is a pure total function into two
categories: any input containing a marker substring (in particular
the AlteryxDocument marker) is classified as an Alteryx workflow, any
input containing none of the markers is classified as generic, and
every input falls in one of the two categories. -/
theorem C7_detector_classification (s : String) :
    (strIncludes s "AlteryxDocument" = true → Converter.detectFileType s = .yxmd)
  ∧ (∀ i ∈ Converter.alteryxIndicators, strIncludes s i = true →
      Converter.detectFileType s = .yxmd)
  ∧ ((∀ i ∈ Converter.alteryxIndicators, strIncludes s i = false) →
      Converter.detectFileType s = .generic)
  ∧ (Converter.detectFileType s = .yxmd ∨ Converter.detectFileType s = .generic) := by
  have hmark : ∀ i ∈ Converter.alteryxIndicators, strIncludes s i = true →
      Converter.detectFileType s = .yxmd := by
    intro i hi h
    have hany : Converter.alteryxIndicators.any (fun ind => strIncludes s ind) = true :=
      List.any_eq_true.mpr ⟨i, hi, h⟩
    simp [Converter.detectFileType, hany]
  refine ⟨?_, hmark, ?_, ?_⟩
  · intro h
    exact hmark "AlteryxDocument" (by simp [Converter.alteryxIndicators]) h
  · intro h
    have hany : Converter.alteryxIndicators.any (fun ind => strIncludes s ind) = false := by
      rw [List.any_eq_false]
      intro i hi
      simp [h i hi]
    simp [Converter.detectFileType, hany]
  · unfold Converter.detectFileType
    split
    · exact Or.inl rfl
    · exact Or.inr rfl

/-- Witness for C7 at a marker-bearing and a marker-free input. -/
theorem C7_detector_classification_witness :
    Converter.detectFileType "<AlteryxDocument yxmdVer=\"2021.4\"></AlteryxDocument>"
      = .yxmd
  ∧ Converter.detectFileType "<Name>Alice</Name>" = .generic :=
  ⟨(C7_detector_classification _).1 (by decide),
   (C7_detector_classification _).2.2.1 (by decide)⟩

/-- C3: for the input element of `<Item id="7">X</Item>`, the mapper
with attribute preservation on yields the attributes-and-text mapping
and with preservation off yields the bare string; and the facade
treats an absent preserveAttributes option exactly as true (shown on
outcomes from an empty cache, where the differing cache keys cannot
influence the result). -/
theorem C3_attribute_preservation :
    Converter.xmlToJson (.element "Item" [("id", "7")] [.text "X"]) true
      = .obj [("@attributes", .obj [("id", .str "7")]), ("#text", .str "X")]
  ∧ Converter.xmlToJson (.element "Item" [("id", "7")] [.text "X"]) false = .str "X"
  ∧ (∀ (parse : String → Except String XmlNode) (now : Nat) (s : String)
      (fmt : Option Converter.OutputFormat) (uc : Option Bool),
      (Converter.convertXmlToJson parse now [] s (some ⟨none, fmt, uc⟩)).outcome
        = (Converter.convertXmlToJson parse now [] s (some ⟨some true, fmt, uc⟩)).outcome)
  ∧ (∀ (parse : String → Except String XmlNode) (now : Nat) (s : String),
      (Converter.convertXmlToJson parse now [] s none).outcome
        = (Converter.convertXmlToJson parse now [] s
            (some ⟨some true, none, none⟩)).outcome) := by
  refine ⟨?_, ?_, ?_, ?_⟩
  · simp [Converter.xmlToJson, isTextNode, nodeValue, jsTrim, strConcat, isJsSpace]
  · simp [Converter.xmlToJson, isTextNode, nodeValue, jsTrim, strConcat, isJsSpace]
  · intro parse now s fmt uc
    simp only [Converter.convertXmlToJson]
    by_cases h1 : jsTrim s = ""
    · simp [h1]
    · by_cases h2 : jsStartsWith (jsTrim s) "<"
      · simp only [h1, h2, if_neg, if_pos, Bool.not_true, Bool.false_eq_true,
          lookupAssoc, ite_self]
        cases parse (Converter.processCDATA (Converter.processNamespaces (jsTrim s))) with
        | error msg => simp
        | ok xmlDoc =>
          simp only [Option.bind_some]
          cases uc with
          | none => simp
          | some b => cases b <;> simp
      · simp [h1, h2]
  · intro parse now s
    simp only [Converter.convertXmlToJson]
    by_cases h1 : jsTrim s = ""
    · simp [h1]
    · by_cases h2 : jsStartsWith (jsTrim s) "<"
      · simp only [h1, h2, if_neg, if_pos, Bool.not_true, Bool.false_eq_true,
          lookupAssoc, ite_self]
        cases parse (Converter.processCDATA (Converter.processNamespaces (jsTrim s))) with
        | error msg => simp
        | ok xmlDoc => simp
      · simp [h1, h2]

theorem childLoop_skip_empty_texts (pre : List XmlNode) :
    ∀ (v : String) (rest : List XmlNode) (p : Bool),
    pre.all (fun c => isTextNode c && (jsTrim (nodeValue c) == "")) = true →
    jsTrim v ≠ "" →
    Converter.childLoop [] (pre ++ XmlNode.text v :: rest) p = .str (jsTrim v) := by
  induction pre with
  | nil =>
    intro v rest p _ htext
    simp [Converter.childLoop, htext]
  | cons c pres ih =>
    intro v rest p hpre htext
    simp only [List.all_cons, Bool.and_eq_true] at hpre
    obtain ⟨hc, hrestall⟩ := hpre
    obtain ⟨hct, hcv⟩ := hc
    cases c with
    | element tg a g => simp [isTextNode] at hct
    | text w =>
      have hw : jsTrim w = "" := by
        simpa [nodeValue] using hcv
      simp only [List.cons_append, Converter.childLoop, hw]
      simp only [ne_eq, not_true_eq_false, decide_False, Bool.false_and,
        Bool.false_eq_true, if_false]
      exact ih v rest p (by simpa using hrestall) htext

/-- C6: a non-empty trimmed text node reached while the output
mapping is still empty (no attributes recorded, only empty-trim text
siblings before it) makes the mapper return that trimmed text
immediately, discarding the structural element children that follow;
and a text node reached while the mapping is non-empty is skipped in
favor of the structural children. -/
theorem C6_mixed_content_discard :
    (∀ (tag v : String) (attrs : List (String × String))
      (pre rest : List XmlNode) (p : Bool),
      pre.all (fun c => isTextNode c && (jsTrim (nodeValue c) == "")) = true →
      rest.any isElementNode = true →
      jsTrim v ≠ "" →
      (p = false ∨ attrs = []) →
      Converter.xmlToJson (.element tag attrs (pre ++ XmlNode.text v :: rest)) p
        = .str (jsTrim v))
  ∧ (∀ (obj : List (String × JsonValue)) (cs : List XmlNode) (v : String) (p : Bool),
      obj ≠ [] →
      Converter.childLoop obj (XmlNode.text v :: cs) p = Converter.childLoop obj cs p) := by
  constructor
  · intro tag v attrs pre rest p hpre hrest htext hnoattr
    have hobj : (if p && !attrs.isEmpty then
        [("@attributes", JsonValue.obj (attrs.map fun a => (a.1, JsonValue.str a.2)))]
        else ([] : List (String × JsonValue))) = [] := by
      rcases hnoattr with hp | ha
      · rw [hp]
        rfl
      · subst ha
        simp
    have hne : (pre ++ XmlNode.text v :: rest).isEmpty = false := by
      simp
    have hmix : (pre ++ XmlNode.text v :: rest).all isTextNode = false := by
      rw [List.all_eq_false]
      obtain ⟨e, he, helem⟩ := List.any_eq_true.mp hrest
      refine ⟨e, by simp [he], ?_⟩
      cases e with
      | element tg a g => simp [isTextNode]
      | text w => simp [isElementNode] at helem
    simp only [Converter.xmlToJson, hobj, hne, hmix, Bool.not_false, Bool.and_false,
      Bool.false_eq_true, if_false, if_true]
    exact childLoop_skip_empty_texts pre v rest p hpre htext
  · intro obj cs v p hobj
    have h : obj.isEmpty = false := by
      cases obj with
      | nil => exact absurd rfl hobj
      | cons a rest => rfl
    simp [Converter.childLoop, h]

/-- C10: in the basic converter variant the preserveAttributes flag
is inert: the mapper output is identical for any two flag values, the
conversion function output is identical for any two option records,
and attributes are still recorded under the reserved attributes key
even with the flag off. -/
theorem C10_basic_flag_inert :
    (∀ (x : XmlNode) (p q : Bool),
      BasicConverter.xmlToJson x p = BasicConverter.xmlToJson x q)
  ∧ (∀ (parse : String → Except String XmlNode) (s : String)
      (o1 o2 : Option BasicConverter.BasicOptions),
      BasicConverter.convertXmlToJson parse s o1
        = BasicConverter.convertXmlToJson parse s o2)
  ∧ BasicConverter.xmlToJson (.element "Item" [("id", "7")] [.text "X"]) false
      = .obj [("@attributes", .obj [("id", .str "7")]), ("#text", .str "X")] := by
  have hmap : ∀ (x : XmlNode) (p q : Bool),
      BasicConverter.xmlToJson x p = BasicConverter.xmlToJson x q := by
    intro x p q
    cases x with
    | text v => simp [BasicConverter.xmlToJson]
    | element tag attrs children => simp only [BasicConverter.xmlToJson]
  refine ⟨hmap, ?_, ?_⟩
  · intro parse s o1 o2
    simp only [BasicConverter.convertXmlToJson]
    by_cases h1 : jsTrim s = ""
    · simp [h1]
    · by_cases h2 : jsStartsWith (jsTrim s) "<"
      · simp only [h1, h2, if_neg, if_pos, Bool.not_true, Bool.false_eq_true]
        cases parse (jsTrim s) with
        | error msg => simp
        | ok xmlDoc =>
          simp only
          rw [hmap xmlDoc ((o1.bind BasicConverter.BasicOptions.preserveAttributes).getD true)
            ((o2.bind BasicConverter.BasicOptions.preserveAttributes).getD true)]
      · simp [h1, h2]
  · simp [BasicConverter.xmlToJson, isTextNode, nodeValue, jsTrim, strConcat, isJsSpace]

/-- Witness for C6: non-empty text before an element child makes the
mapper return the text and drop the element. -/
theorem C6_mixed_content_discard_witness :
    Converter.xmlToJson
      (.element "R" [] [.text "hello", .element "El" [] [.text "x"]]) true
      = .str "hello" := by
  have h := C6_mixed_content_discard.1 "R" "hello" [] []
    [.element "El" [] [.text "x"]] true rfl rfl (by decide) (Or.inr rfl)
  rw [List.nil_append] at h
  exact h.trans (congrArg JsonValue.str rfl)

/-- C8 (amended): the tool position coordinates are computed by JS
`parseInt` applied to the corresponding `GuiSettings` coordinate
attribute, with the literal "0" substituted when the attribute is
absent or empty — so the field is 0 exactly in the absent/empty
cases, and an attribute value with no parsable digit prefix yields
NaN (`none`), not 0. -/
theorem C8_position_parsing (node : XmlNode) :
    ((WorkflowConverter.parseToolNode node).position.x
      = jsParseInt (jsOr ((querySelector node "GuiSettings").bind
          (fun g => getAttribute g "X")) "0"))
  ∧ ((WorkflowConverter.parseToolNode node).position.y
      = jsParseInt (jsOr ((querySelector node "GuiSettings").bind
          (fun g => getAttribute g "Y")) "0"))
  ∧ ((querySelector node "GuiSettings").bind (fun g => getAttribute g "X") = none →
      (WorkflowConverter.parseToolNode node).position.x = some 0)
  ∧ ((querySelector node "GuiSettings").bind (fun g => getAttribute g "X") = some "" →
      (WorkflowConverter.parseToolNode node).position.x = some 0)
  ∧ (∀ s, (querySelector node "GuiSettings").bind (fun g => getAttribute g "X") = some s →
      s ≠ "" → (WorkflowConverter.parseToolNode node).position.x = jsParseInt s)
  ∧ ((querySelector node "GuiSettings").bind (fun g => getAttribute g "Y") = none →
      (WorkflowConverter.parseToolNode node).position.y = some 0)
  ∧ ((querySelector node "GuiSettings").bind (fun g => getAttribute g "Y") = some "" →
      (WorkflowConverter.parseToolNode node).position.y = some 0)
  ∧ (∀ s, (querySelector node "GuiSettings").bind (fun g => getAttribute g "Y") = some s →
      s ≠ "" → (WorkflowConverter.parseToolNode node).position.y = jsParseInt s) := by
  refine ⟨rfl, rfl, ?_, ?_, ?_, ?_, ?_, ?_⟩
  · intro h
    simp [WorkflowConverter.parseToolNode, h, jsOr] <;> rfl
  · intro h
    simp [WorkflowConverter.parseToolNode, h, jsOr] <;> rfl
  · intro s h hs
    cases s with
    | mk data =>
      cases data with
      | nil => exact absurd rfl hs
      | cons c cs => simp only [WorkflowConverter.parseToolNode, h, jsOr]
  · intro h
    simp [WorkflowConverter.parseToolNode, h, jsOr] <;> rfl
  · intro h
    simp [WorkflowConverter.parseToolNode, h, jsOr] <;> rfl
  · intro s h hs
    cases s with
    | mk data =>
      cases data with
      | nil => exact absurd rfl hs
      | cons c cs => simp only [WorkflowConverter.parseToolNode, h, jsOr]

/-- Counterexample for C8 as stated: a coordinate attribute that
fails to parse as an integer yields NaN (`none`), not 0. -/
theorem C8_position_parsing_counterexample :
    (WorkflowConverter.parseToolNode
      (.element "Node" [("ToolID", "1")]
        [.element "GuiSettings" [("Plugin", "P"), ("X", "abc"), ("Y", "54")] []])).position.x
      = none
  ∧ (WorkflowConverter.parseToolNode
      (.element "Node" [("ToolID", "1")]
        [.element "GuiSettings" [("Plugin", "P"), ("X", "abc"), ("Y", "54")] []])).position.x
      ≠ some 0
  ∧ (WorkflowConverter.parseToolNode
      (.element "Node" [("ToolID", "1")]
        [.element "GuiSettings" [("Plugin", "P"), ("X", "abc"), ("Y", "54")] []])).position.y
      = some 54 := by
  have hx : (WorkflowConverter.parseToolNode
      (.element "Node" [("ToolID", "1")]
        [.element "GuiSettings" [("Plugin", "P"), ("X", "abc"), ("Y", "54")] []])).position.x
      = none := by
    simp [WorkflowConverter.parseToolNode, querySelector, descendantElements,
      elementsPreList, elementsPre, nodeName, getAttribute, jsOr, jsParseInt,
      isJsSpace, parseIntMagnitude, parseDecPrefix, isDecDigit, List.find?]
  have hy : (WorkflowConverter.parseToolNode
      (.element "Node" [("ToolID", "1")]
        [.element "GuiSettings" [("Plugin", "P"), ("X", "abc"), ("Y", "54")] []])).position.y
      = some 54 := by
    simp [WorkflowConverter.parseToolNode, querySelector, descendantElements,
      elementsPreList, elementsPre, nodeName, getAttribute, jsOr, jsParseInt,
      isJsSpace, parseIntMagnitude, parseDecPrefix, isDecDigit, decDigitsVal,
      List.find?]
  refine ⟨hx, ?_, hy⟩
  rw [hx]
  simp

/-- Witness for C8 (amended): a node with no GuiSettings element gets
position 0,0. -/
theorem C8_position_parsing_witness :
    (WorkflowConverter.parseToolNode (.element "Node" [("ToolID", "2")] [])).position.x
      = some 0 := by
  exact (C8_position_parsing (.element "Node" [("ToolID", "2")] [])).2.2.1 rfl

theorem head?_filter {α : Type} (p : α → Bool) (l : List α) :
    (l.filter p).head? = l.find? p := by
  induction l with
  | nil => rfl
  | cons a rest ih =>
    simp only [List.filter_cons, List.find?]
    cases hp : p a with
    | true => rfl
    | false => exact ih

/-- C9: the workflow-level properties mapping is built from exactly
the first Properties element of the document in document order
(flattening its direct children); and whenever that first Properties
element lies inside a tool Node element, the workflow's properties
mapping is a copy of that tool's configuration. -/
theorem C9_first_properties (xmlDoc : XmlNode) :
    ((WorkflowConverter.parseAlteryxWorkflow xmlDoc).properties =
      match docQuerySelector xmlDoc "Properties" with
      | some props => WorkflowConverter.extractConfiguration props
      | none => [])
  ∧ (∀ (N : XmlNode) (l1 l2 : List XmlNode),
      nodeName N = "Node" →
      elementsPre xmlDoc = l1 ++ elementsPre N ++ l2 →
      (∀ e ∈ l1, nodeName e ≠ "Properties") →
      (∃ e ∈ descendantElements N, nodeName e = "Properties") →
      (WorkflowConverter.parseToolNode N)
          ∈ (WorkflowConverter.parseAlteryxWorkflow xmlDoc).tools
        ∧ (WorkflowConverter.parseAlteryxWorkflow xmlDoc).properties
          = (WorkflowConverter.parseToolNode N).configuration) := by
  constructor
  · rfl
  · intro N l1 l2 hname hdecomp hl1 hD
    have hNelem : elementsPre N = N :: descendantElements N := by
      cases N with
      | text v => simp [nodeName] at hname
      | element tag attrs children => rfl
    have hmemN : N ∈ elementsPre xmlDoc := by
      rw [hdecomp, hNelem]
      simp
    constructor
    · have : N ∈ docQuerySelectorAll xmlDoc "Node" := by
        unfold docQuerySelectorAll
        rw [List.mem_filter]
        exact ⟨hmemN, by simp [hname]⟩
      exact List.mem_map_of_mem WorkflowConverter.parseToolNode this
    · have hfilterl1 : l1.filter (fun e => nodeName e = "Properties") = [] := by
        rw [List.filter_eq_nil]
        intro e he
        simp [hl1 e he]
      have hfilterN : (decide (nodeName N = "Properties")) = false := by
        rw [hname]
        decide
      have hfilterD : (descendantElements N).filter
          (fun e => nodeName e = "Properties") ≠ [] := by
        obtain ⟨e, he, hprop⟩ := hD
        intro hnil
        have : e ∈ ([] : List XmlNode) := by
          rw [← hnil]
          rw [List.mem_filter]
          exact ⟨he, by simp [hprop]⟩
        simp at this
      have hsel : docQuerySelector xmlDoc "Properties"
          = querySelector N "Properties" := by
        unfold docQuerySelector docQuerySelectorAll querySelector
        rw [hdecomp, hNelem]
        rw [List.filter_append, List.filter_append, hfilterl1, List.filter_cons]
        simp only [hfilterN, Bool.false_eq_true, if_neg, if_false, List.nil_append]
        rw [← head?_filter]
        cases hcase : (descendantElements N).filter
            (fun e => nodeName e = "Properties") with
        | nil => exact absurd hcase hfilterD
        | cons x xs => rfl
      show (match docQuerySelector xmlDoc "Properties" with
        | some props => WorkflowConverter.extractConfiguration props
        | none => ([] : List (String × String))) = _
      rw [hsel]
      show _ = (match querySelector N "Properties" with
        | some props => WorkflowConverter.extractConfiguration props
        | none => ([] : List (String × String)))
      rfl

/-- Witness for C9: a document whose first Properties element lies
inside the only tool node; the workflow properties equal that tool's
configuration. -/
theorem C9_first_properties_witness :
    (WorkflowConverter.parseToolNode
        (.element "Node" [("ToolID", "1")]
          [.element "Properties" [] [.element "Value" [] [.text "v"]]]))
      ∈ (WorkflowConverter.parseAlteryxWorkflow
          (.element "AlteryxDocument" []
            [.element "Node" [("ToolID", "1")]
              [.element "Properties" [] [.element "Value" [] [.text "v"]]]])).tools
  ∧ (WorkflowConverter.parseAlteryxWorkflow
        (.element "AlteryxDocument" []
          [.element "Node" [("ToolID", "1")]
            [.element "Properties" [] [.element "Value" [] [.text "v"]]]])).properties
      = (WorkflowConverter.parseToolNode
          (.element "Node" [("ToolID", "1")]
            [.element "Properties" [] [.element "Value" [] [.text "v"]]])).configuration := by
  refine (C9_first_properties _).2
    (.element "Node" [("ToolID", "1")]
      [.element "Properties" [] [.element "Value" [] [.text "v"]]])
    [.element "AlteryxDocument" []
      [.element "Node" [("ToolID", "1")]
        [.element "Properties" [] [.element "Value" [] [.text "v"]]]]]
    [] rfl ?_ ?_ ?_
  · simp [elementsPre, elementsPreList]
  · intro e he
    simp only [List.mem_singleton] at he
    subst he
    simp [nodeName]
  · refine ⟨.element "Properties" [] [.element "Value" [] [.text "v"]], ?_, rfl⟩
    simp [descendantElements, elementsPreList, elementsPre]

/-- C5: with caching enabled, a successful uncached conversion stores
its result under the input+options key; a second call with identical
input and options within the time-to-live returns the byte-identical
cached result without invoking the parser and leaves the cache
unchanged; after the time-to-live has elapsed the parser is invoked
again; and the store lazily purges every entry older than the
time-to-live. -/
theorem C5_cache_behavior (parse : String → Except String XmlNode)
    (now1 now2 : Nat) (cache0 : Converter.ConversionCache) (s : String)
    (opts : Option Converter.ConvOptions) (r : String)
    (cache1 : Converter.ConversionCache)
    (huse : (opts.bind Converter.ConvOptions.useCache).getD true = true)
    (hret : Converter.convertXmlToJson parse now1 cache0 s opts
      = ⟨.ok r, cache1, true⟩)
    (h12 : now1 ≤ now2) :
    (now2 - now1 < Converter.CACHE_DURATION →
      Converter.convertXmlToJson parse now2 cache1 s opts = ⟨.ok r, cache1, false⟩)
  ∧ (Converter.CACHE_DURATION ≤ now2 - now1 →
      (Converter.convertXmlToJson parse now2 cache1 s opts).parserInvoked = true)
  ∧ (∀ e ∈ cache1, now1 - e.2.timestamp ≤ Converter.CACHE_DURATION) := by
  by_cases h1 : jsTrim s = ""
  · simp [Converter.convertXmlToJson, h1] at hret
  by_cases h2 : jsStartsWith (jsTrim s) "<"
  case neg => simp [Converter.convertXmlToJson, h1, h2] at hret
  simp only [Converter.convertXmlToJson, h1, h2, if_neg, if_pos, Bool.not_true,
    Bool.false_eq_true, if_false, huse, if_true] at hret
  have hmiss : (match lookupAssoc cache0
        (jsTrim s ++ "_" ++ Converter.stringifyOptions opts) with
      | some c => if now1 - c.timestamp < Converter.CACHE_DURATION then some c else none
      | none => none) = none := by
    cases hl : lookupAssoc cache0 (jsTrim s ++ "_" ++ Converter.stringifyOptions opts) with
    | none => rfl
    | some c =>
      simp only
      by_cases hf : now1 - c.timestamp < Converter.CACHE_DURATION
      · rw [hl] at hret
        simp [hf] at hret
      · simp [hf]
  rw [hmiss] at hret
  cases hp : parse (Converter.processCDATA (Converter.processNamespaces (jsTrim s))) with
  | error msg =>
    rw [hp] at hret
    simp at hret
  | ok xmlDoc =>
    rw [hp] at hret
    simp only [huse, if_true, Converter.ConvOutcome.mk.injEq, Except.ok.injEq] at hret
    obtain ⟨hr, hcache, -⟩ := hret
    have hstored : lookupAssoc cache1
        (jsTrim s ++ "_" ++ Converter.stringifyOptions opts)
        = some ⟨r, now1⟩ := by
      rw [← hcache, ← hr]
      unfold Converter.cleanCache
      apply lookupAssoc_filter
      · exact lookupAssoc_setAssoc_self _ _ _
      · simp [Converter.CACHE_DURATION]
    refine ⟨?_, ?_, ?_⟩
    · intro hfresh
      simp only [Converter.convertXmlToJson, h1, h2, if_neg, if_pos, Bool.not_true,
        Bool.false_eq_true, if_false, huse, if_true, hstored, hfresh]
    · intro hstale
      have hnotfresh : ¬ (now2 - now1 < Converter.CACHE_DURATION) := by
        omega
      simp only [Converter.convertXmlToJson, h1, h2, if_neg, if_pos, Bool.not_true,
        Bool.false_eq_true, if_false, huse, if_true, hstored, hnotfresh]
      cases hp2 : parse (Converter.processCDATA (Converter.processNamespaces (jsTrim s))) with
      | error msg => simp
      | ok d => simp
    · intro e he
      rw [← hcache] at he
      unfold Converter.cleanCache at he
      rw [List.mem_filter] at he
      have := he.2
      simp only [Bool.not_eq_eq_eq_not, Bool.not_true, decide_eq_false_iff_not] at this
      omega

/-- Witness for C5: a concrete first conversion stores its result;
the second call one millisecond later returns it from the cache
without invoking the parser. -/
theorem C5_cache_behavior_witness :
    Converter.convertXmlToJson (fun _ => .ok (.element "a" [] [])) 1
      [("<a/>_undefined", ⟨"{}", 0⟩)] "<a/>" none
      = ⟨.ok "{}", [("<a/>_undefined", ⟨"{}", 0⟩)], false⟩ := by
  have hconv : Converter.convertXmlToJson (fun _ => .ok (.element "a" [] [])) 0
      [] "<a/>" none = ⟨.ok "{}", [("<a/>_undefined", ⟨"{}", 0⟩)], true⟩ := by
    simp [Converter.convertXmlToJson, jsTrim, isJsSpace, jsStartsWith,
      Converter.stringifyOptions, lookupAssoc, Converter.processCDATA,
      Converter.processCDATAAux, Converter.findSubSplit, Converter.processNamespaces,
      Converter.detectFileType, Converter.alteryxIndicators, strIncludes,
      listContainsSub, List.isPrefixOf, Converter.xmlToJson,
      Converter.formatJsonOutput, Converter.renderInd, Converter.cleanCache,
      setAssoc, Converter.CACHE_DURATION, isTextNode, nodeValue, strConcat]
  exact (C5_cache_behavior (fun _ => .ok (.element "a" [] [])) 0 1 [] "<a/>" none
    "{}" [("<a/>_undefined", ⟨"{}", 0⟩)] rfl hconv (by decide)).1 (by decide)
